import Mathlib

/-!
Verification of the Monte Carlo portfolio analyser.

The browser layer (App.jsx, api.js, FanChart.jsx, SummaryTable.jsx and the
other chart components) is embedded directly from source.  The backend
engine (the FastAPI + NumPy analytics and simulation service) is not among
the available sources, so the parts of it that the properties below need
are modelled from the specification; every such definition carries a doc
comment starting with "Modelled from the spec:".

Numeric convention: JavaScript and NumPy floating-point numbers are
modelled as exact rationals, and the transcendental primitives Math.exp
and Math.sqrt are taken as abstract function parameters, so every
algebraic identity proved here holds for any interpretation of those
primitives.
-/

namespace MCAnalyser

/-- A trade record as fixed by the data model: symbol, entry and exit
timestamps, signed quantity, prices, realized profit and loss, and entry
notional.  Timestamps are modelled as rationals. -/
structure Trade where
  symbol : String
  entry_time : ℚ
  exit_time : ℚ
  quantity : ℚ
  entry_price : ℚ
  exit_price : ℚ
  pnl : ℚ
  notional : ℚ
deriving DecidableEq

/-- The Abramowitz and Stegun approximation of the standard normal CDF
from SummaryTable.jsx, with Math.exp abstracted as the parameter exp.
The decimal constants of the source are carried as exact rationals. -/
def normalCDF (exp : ℚ → ℚ) (x : ℚ) : ℚ :=
  let t := 1 / (1 + 2316419 / 10000000 * |x|)
  let d := 3989422820 / 10000000000 * exp (-(x * x) / 2)
  let p := d * t * (3193815 / 10000000 + t * (-(3565638 / 10000000) + t *
    (17814779 / 10000000 + t * (-(18212560 / 10000000) + t * (13302744 / 10000000)))))
  if 0 ≤ x then 1 - p else p

/-- One derived scenario row of the summary table in SummaryTable.jsx. -/
structure ScenarioRow where
  mean : ℚ
  median : ℚ
  p5 : ℚ
  p95 : ℚ
  probProfit : ℚ
  probDD : ℚ
deriving DecidableEq

/-- The deriveRow closure of SummaryTable.jsx: a closed-form scenario row
from the historical metrics, with Math.sqrt and Math.exp abstracted as the
parameters sqrt and exp. -/
def deriveRow (sqrt exp : ℚ → ℚ) (n ic mean_pnl std meanScale : ℚ) : ScenarioRow :=
  let scaledMean := mean_pnl * meanScale
  let newMean := ic + n * scaledMean
  let newMedian := ic + n * scaledMean * (97 / 100)
  let newStd := sqrt n * std
  let newP5 := newMean - 1645 / 1000 * newStd
  let newP95 := newMean + 1645 / 1000 * newStd
  let z := (newMean - ic) / max newStd 1
  let probProfit := normalCDF exp z
  let zDD := (-(1 / 2) * ic - (newMean - ic)) / max newStd 1
  let probDD := 1 - normalCDF exp zDD
  { mean := newMean, median := newMedian, p5 := newP5, p95 := newP95,
    probProfit := probProfit, probDD := probDD }

/-- The four risk classification labels of RiskBadge in SummaryTable.jsx. -/
inductive RiskLabel where
  | low
  | mediumLow
  | medium
  | high
deriving DecidableEq

/-- The label chosen by RiskBadge in SummaryTable.jsx. -/
def riskLabel (prob_profit prob_drawdown : ℚ) : RiskLabel :=
  if 99 / 100 ≤ prob_profit ∧ prob_drawdown < 1 / 100 then RiskLabel.low
  else if 90 / 100 ≤ prob_profit ∧ prob_drawdown < 5 / 100 then RiskLabel.mediumLow
  else if 70 / 100 ≤ prob_profit then RiskLabel.medium
  else RiskLabel.high

/-- The fanX trace of FanChart.jsx: for each sample path its point indices
are pushed, followed by a null separator (modelled as none). -/
def fanX (sample_paths : List (List ℚ)) : List (Option ℕ) :=
  sample_paths.foldl (fun out path => out ++ (List.range path.length).map some ++ [none]) []

/-- The fanY trace of FanChart.jsx: for each sample path its values divided
by one million are pushed, followed by a null separator. -/
def fanY (sample_paths : List (List ℚ)) : List (Option ℚ) :=
  sample_paths.foldl (fun out path => out ++ path.map (fun v => some (v / 1000000)) ++ [none]) []

/-- A JavaScript value appearing in a parsed detail field: either a string
or a non-string value carried by its JSON.stringify image. -/
inductive JSVal where
  | str (s : String)
  | obj (stringified : String)
deriving DecidableEq

/-- The parsed JSON body of an HTTP response: an optional detail field
(none models an absent field, i.e. undefined) and the remaining payload,
kept abstract. -/
structure ResponseBody where
  detail : Option JSVal
  payload : String
deriving DecidableEq

/-- An HTTP response as observed by api.js: the ok flag, the parsed JSON
body when res.json() succeeds (none models a parse rejection), and the
status text. -/
structure HttpResponse where
  ok : Bool
  body : Option ResponseBody
  statusText : String
deriving DecidableEq

/-- The value of res.json().then(j => j.detail).catch(() => res.statusText)
in api.js: the status text (a string) when the body fails to parse,
otherwise the detail field, which may be absent. -/
def errorDetail (res : HttpResponse) : Option JSVal :=
  match res.body with
  | none => some (JSVal.str res.statusText)
  | some b => b.detail

/-- The message of the Error thrown by handleResponse in api.js: the detail
when it is a string, its JSON.stringify image when it is a non-string, and
the empty message when the detail is absent (new Error of JSON.stringify of
undefined has an empty message). -/
def errorMessage (res : HttpResponse) : String :=
  match errorDetail res with
  | some (JSVal.str s) => s
  | some (JSVal.obj r) => r
  | none => ""

/-- handleResponse from api.js: an ok response returns its parsed JSON body
(a parse rejection propagates), a non-ok response throws an Error built
from the detail field, modelled as the error branch of Except. -/
def handleResponse (res : HttpResponse) : Except String ResponseBody :=
  if res.ok then
    match res.body with
    | some b => Except.ok b
    | none => Except.error ("SyntaxError")
  else Except.error (errorMessage res)

/-- Modelled from the spec: the AnalysisRequest contract of the missing
backend — trade sequence, positive initial capital, simulation count S and
sample path count M. -/
structure AnalysisRequest where
  trades : List Trade
  initial_capital : ℚ
  n_simulations : ℕ
  n_sample_paths : ℕ
deriving DecidableEq

/-- The analysis request built by handleUpload in App.jsx: the uploaded
trades, the chosen initial capital, and the fixed counts 10000 and 500. -/
def mkAnalysisRequest (trades : List Trade) (ic : ℚ) : AnalysisRequest :=
  { trades := trades, initial_capital := ic, n_simulations := 10000,
    n_sample_paths := 500 }

/-- Modelled from the spec: clamped lookup into a sorted list, used by the
linear-interpolation percentile of the missing backend engine. -/
def nthSorted (s : List ℚ) (i : ℕ) : ℚ := s.getD (min i (s.length - 1)) 0

/-- Modelled from the spec: linear interpolation between the order
statistics bracketing a fractional position. -/
def interpAt (s : List ℚ) (pos : ℚ) : ℚ :=
  nthSorted s ⌊pos⌋.toNat +
    (pos - ⌊pos⌋) * (nthSorted s (⌊pos⌋.toNat + 1) - nthSorted s ⌊pos⌋.toNat)

/-- Modelled from the spec: the percentile with linear interpolation
between order statistics, the convention the spec fixes for both the final
distribution and the path bands of the missing backend engine. -/
def percentile (q : ℚ) (xs : List ℚ) : ℚ :=
  interpAt (List.insertionSort (· ≤ ·) xs) (q * ((xs.length : ℚ) - 1) / 100)

/-- Modelled from the spec: the running cumulative sum started from acc, so
element j is acc plus the sum of the first j plus one inputs — the equity
path of one P&L sequence. -/
def cumsumFrom (acc : ℚ) : List ℚ → List ℚ
  | [] => []
  | x :: xs => (acc + x) :: cumsumFrom (acc + x) xs

/-- Modelled from the spec: maximum fractional drawdown against the running
peak, a zero peak contributing zero. -/
def maxDrawdownAux (peak best : ℚ) : List ℚ → ℚ
  | [] => best
  | e :: rest =>
    let peak2 := max peak e
    let dd := if peak2 = 0 then 0 else (peak2 - e) / peak2
    maxDrawdownAux peak2 (max best dd) rest

/-- Modelled from the spec: maximum drawdown of an equity path. -/
def maxDrawdown : List ℚ → ℚ
  | [] => 0
  | e :: rest => maxDrawdownAux e 0 (e :: rest)

/-- Modelled from the spec: the mean of a list of rationals. -/
def meanOf (xs : List ℚ) : ℚ := xs.sum / xs.length

/-- Modelled from the spec: one bootstrap row — n indices drawn from the
injectable generator idx, reduced into range, gathered from the P&L
series. -/
def bootstrapRow (idx : ℕ → ℕ → ℕ) (pnl : List ℚ) (i : ℕ) : List ℚ :=
  (List.range pnl.length).map (fun k => pnl.getD (idx i k % pnl.length) 0)

/-- Modelled from the spec: the S simulated equity paths, each the running
cumulative sum of a bootstrap row started from the initial capital. -/
def simPaths (idx : ℕ → ℕ → ℕ) (C : ℚ) (pnl : List ℚ) (S : ℕ) : List (List ℚ) :=
  (List.range S).map (fun i => cumsumFrom C (bootstrapRow idx pnl i))

/-- Modelled from the spec: the final equity of a simulated path is its
last element. -/
def finalEquity (path : List ℚ) : ℚ := path.getLastD 0

/-- Modelled from the spec: the cross-section of the ensemble at one time
index. -/
def column (paths : List (List ℚ)) (j : ℕ) : List ℚ :=
  paths.map (fun p => p.getD j 0)

/-- Modelled from the spec: one percentile band curve over the time axis. -/
def bandPath (q : ℚ) (paths : List (List ℚ)) (n : ℕ) : List ℚ :=
  (List.range n).map (fun j => percentile q (column paths j))

/-- Modelled from the spec: the final-equity distribution summary of the
missing backend engine. -/
structure MCDistribution where
  final_equities : List ℚ
  mean_final : ℚ
  median_final : ℚ
  p5 : ℚ
  p95 : ℚ
  prob_profit : ℚ
  prob_large_drawdown : ℚ
deriving DecidableEq

/-- Modelled from the spec: the percentile band curves and the sample path
subset of the missing backend engine. -/
structure MCPaths where
  median_path : List ℚ
  p5_path : List ℚ
  p25_path : List ℚ
  p75_path : List ℚ
  p95_path : List ℚ
  sample_paths : List (List ℚ)
deriving DecidableEq

/-- Modelled from the spec: the historical equity curve paired with exit
timestamps. -/
structure EquityCurve where
  times : List ℚ
  equity : List ℚ
deriving DecidableEq

/-- Modelled from the spec: the entry-notional series paired with exit
timestamps, passed through for visualization. -/
structure NotionalData where
  times : List ℚ
  notionals : List ℚ
deriving DecidableEq

/-- Modelled from the spec: the response contract of the missing backend
engine; the historical metrics block is omitted because no settled claim
depends on its numeric values. -/
structure AnalysisResponse where
  mc_distribution : MCDistribution
  mc_paths : MCPaths
  equity_curve : EquityCurve
  pnl_series : List ℚ
  notional_data : NotionalData
deriving DecidableEq

/-- Modelled from the spec: the historical P&L series of a request. -/
def enginePnl (req : AnalysisRequest) : List ℚ := req.trades.map Trade.pnl

/-- Modelled from the spec: the simulated ensemble of a request under the
injectable index generator idx. -/
def enginePaths (idx : ℕ → ℕ → ℕ) (req : AnalysisRequest) : List (List ℚ) :=
  simPaths idx req.initial_capital (enginePnl req) req.n_simulations

/-- Modelled from the spec: the S final equities of the ensemble. -/
def engineFinals (idx : ℕ → ℕ → ℕ) (req : AnalysisRequest) : List ℚ :=
  (enginePaths idx req).map finalEquity

/-- Modelled from the spec: the full assembled response of the missing
backend engine for a validated request. -/
def engineResponse (idx : ℕ → ℕ → ℕ) (req : AnalysisRequest) : AnalysisResponse :=
  { mc_distribution :=
    { final_equities := engineFinals idx req
      mean_final := meanOf (engineFinals idx req)
      median_final := percentile 50 (engineFinals idx req)
      p5 := percentile 5 (engineFinals idx req)
      p95 := percentile 95 (engineFinals idx req)
      prob_profit :=
        (((engineFinals idx req).filter (fun v => req.initial_capital < v)).length : ℚ) /
          req.n_simulations
      prob_large_drawdown :=
        (((enginePaths idx req).filter (fun p => 1 / 2 < maxDrawdown p)).length : ℚ) /
          req.n_simulations }
    mc_paths :=
    { median_path := bandPath 50 (enginePaths idx req) (enginePnl req).length
      p5_path := bandPath 5 (enginePaths idx req) (enginePnl req).length
      p25_path := bandPath 25 (enginePaths idx req) (enginePnl req).length
      p75_path := bandPath 75 (enginePaths idx req) (enginePnl req).length
      p95_path := bandPath 95 (enginePaths idx req) (enginePnl req).length
      sample_paths := (enginePaths idx req).take req.n_sample_paths }
    equity_curve :=
    { times := req.trades.map Trade.exit_time
      equity := cumsumFrom req.initial_capital (enginePnl req) }
    pnl_series := enginePnl req
    notional_data :=
    { times := req.trades.map Trade.exit_time
      notionals := req.trades.map Trade.notional } }

/-- Modelled from the spec: the error taxonomy entry for invalid input. -/
inductive EngineError where
  | invalidInput
deriving DecidableEq

/-- Modelled from the spec: the engine entry point — validation happens
first and an invalid request fails with InvalidInput before any of the
computation is reached; otherwise the assembled response is returned. -/
def analyze (idx : ℕ → ℕ → ℕ) (req : AnalysisRequest) :
    Except EngineError AnalysisResponse :=
  if req.trades = [] ∨ req.initial_capital ≤ 0 ∨ req.n_simulations = 0 ∨
      req.n_sample_paths = 0 ∨ req.n_simulations < req.n_sample_paths then
    Except.error EngineError.invalidInput
  else
    Except.ok (engineResponse idx req)

/-- The parsed upload result consumed by App.jsx: the trade list together
with the count and symbol summary returned by the upload endpoint. -/
structure UploadData where
  trades : List Trade
  total_trades : ℕ
  symbols : List String
deriving DecidableEq

/-- The pieces of App.jsx component state that handleUpload writes. -/
structure AppState where
  loading : Bool
  error : Option String
  results : Option AnalysisResponse
deriving DecidableEq

/-- A network request issued by handleUpload in App.jsx, in issue order. -/
inductive FrontEvent where
  | uploadReq (file : String)
  | analyzeReq (req : AnalysisRequest)
deriving DecidableEq

/-- handleUpload from App.jsx: upload the file, then run the analysis on
the trades the upload returned with the fixed simulation counts; a failure
of either step records the error message and leaves the results empty; the
finally block always clears the loading flag.  The returned list is the
trace of network requests in issue order. -/
def handleUpload (uploadFile : String → Except String UploadData)
    (runAnalysis : AnalysisRequest → Except String AnalysisResponse)
    (ic : ℚ) (file : String) : AppState × List FrontEvent :=
  match uploadFile file with
  | Except.error e =>
    ({ loading := false, error := some e, results := none }, [FrontEvent.uploadReq file])
  | Except.ok u =>
    match runAnalysis (mkAnalysisRequest u.trades ic) with
    | Except.error e =>
      ({ loading := false, error := some e, results := none },
        [FrontEvent.uploadReq file, FrontEvent.analyzeReq (mkAnalysisRequest u.trades ic)])
    | Except.ok a =>
      ({ loading := false, error := none, results := some a },
        [FrontEvent.uploadReq file, FrontEvent.analyzeReq (mkAnalysisRequest u.trades ic)])

/-- C6 counterexample input: a non-ok response whose body parses to JSON
that lacks a detail field, with a non-empty status text. -/
def resNoDetail : HttpResponse :=
  { ok := false, body := some { detail := none, payload := "irrelevant" },
    statusText := "Bad Request" }

/-- A concrete trade used by the evaluation witnesses. -/
def tA : Trade :=
  { symbol := "XYZ", entry_time := 0, exit_time := 1, quantity := 1,
    entry_price := 10, exit_price := 11, pnl := 100, notional := 1000 }

/-- A second concrete trade used by the evaluation witnesses. -/
def tB : Trade :=
  { symbol := "XYZ", entry_time := 1, exit_time := 2, quantity := -1,
    entry_price := 11, exit_price := 10, pnl := -50, notional := 1100 }

/-- A small valid analysis request used by the evaluation witnesses. -/
def reqA : AnalysisRequest :=
  { trades := [tA, tB], initial_capital := 1000, n_simulations := 3,
    n_sample_paths := 2 }

/-- An invalid analysis request (empty trade list) used by the evaluation
witnesses. -/
def reqBad : AnalysisRequest :=
  { trades := [], initial_capital := 1000, n_simulations := 10,
    n_sample_paths := 1 }

/-- A concrete index generator used by the evaluation witnesses. -/
def idxZero : ℕ → ℕ → ℕ := fun i k => i + k

/-- A concrete upload result used by the evaluation witnesses. -/
def uD : UploadData := { trades := [tA, tB], total_trades := 2, symbols := ["XYZ"] }

/-- A concrete always-succeeding upload endpoint used by the evaluation
witnesses. -/
def upA : String → Except String UploadData := fun _ => Except.ok uD

/-- A concrete always-failing analysis endpoint used by the evaluation
witnesses. -/
def runA : AnalysisRequest → Except String AnalysisResponse :=
  fun _ => Except.error ("boom")

/-- A concrete file name used by the evaluation witnesses. -/
def fileA : String := "f"

/-- A concrete parsed error body with a string detail, used by the
evaluation witnesses. -/
def bodyStr : ResponseBody := { detail := some (JSVal.str ("bad capital")), payload := "p" }

/-- A concrete non-ok response with a string detail, used by the evaluation
witnesses. -/
def resStr : HttpResponse :=
  { ok := false, body := some bodyStr, statusText := "Unprocessable" }

/-- C4: each derived scenario row of the summary table is computed in closed
form from the historical metrics, with no re-simulation: the mean is the
initial capital plus the trade count times the scaled mean P&L, the final
standard deviation is sqrt of the trade count times the P&L standard
deviation, the percentiles sit 1.645 such deviations on either side of the
mean, and both probabilities evaluate the normal-CDF approximation at
z-scores whose denominator is clamped to at least 1. -/
theorem deriveRow_closed_form (sqrt exp : ℚ → ℚ) (n ic mean_pnl std meanScale : ℚ) :
    (deriveRow sqrt exp n ic mean_pnl std meanScale).mean = ic + n * (mean_pnl * meanScale) ∧
    (deriveRow sqrt exp n ic mean_pnl std meanScale).p5 =
      (deriveRow sqrt exp n ic mean_pnl std meanScale).mean - 1645 / 1000 * (sqrt n * std) ∧
    (deriveRow sqrt exp n ic mean_pnl std meanScale).p95 =
      (deriveRow sqrt exp n ic mean_pnl std meanScale).mean + 1645 / 1000 * (sqrt n * std) ∧
    (deriveRow sqrt exp n ic mean_pnl std meanScale).probProfit =
      normalCDF exp (((deriveRow sqrt exp n ic mean_pnl std meanScale).mean - ic) /
        max (sqrt n * std) 1) ∧
    (deriveRow sqrt exp n ic mean_pnl std meanScale).probDD =
      1 - normalCDF exp ((-(1 / 2) * ic -
        ((deriveRow sqrt exp n ic mean_pnl std meanScale).mean - ic)) /
        max (sqrt n * std) 1) ∧
    1 ≤ max (sqrt n * std) 1 :=
  ⟨rfl, rfl, rfl, rfl, rfl, le_max_right _ _⟩

/-- C8: for positive x the two branches of normalCDF evaluate the same
polynomial tail at the absolute value, so the values at x and at minus x
sum to exactly one, for every interpretation of Math.exp. -/
theorem normalCDF_reflection (exp : ℚ → ℚ) (x : ℚ) (hx : 0 < x) :
    normalCDF exp x + normalCDF exp (-x) = 1 := by
  have h1 : 0 ≤ x := le_of_lt hx
  have h2 : ¬ 0 ≤ -x := by linarith
  simp only [normalCDF, abs_neg, neg_mul_neg, if_pos h1, if_neg h2]
  ring

/-- C8 witness: the reflection identity instantiated at x equal to one and
a concrete interpretation of Math.exp. -/
theorem normalCDF_reflection_w :
    0 < (1 : ℚ) ∧ normalCDF (fun _ => 1) 1 + normalCDF (fun _ => 1) (-1) = 1 :=
  ⟨by norm_num, normalCDF_reflection (fun _ => 1) 1 (by norm_num)⟩

/-- C10: RiskBadge assigns exactly one label, by the first matching guard:
LOW iff profit probability at least 0.99 and drawdown probability below
0.01, else MEDIUM-LOW iff at least 0.90 and below 0.05, else MEDIUM iff at
least 0.70, else HIGH. -/
theorem riskLabel_spec (pp dd : ℚ) :
    (riskLabel pp dd = RiskLabel.low ↔ 99 / 100 ≤ pp ∧ dd < 1 / 100) ∧
    (riskLabel pp dd = RiskLabel.mediumLow ↔
      ¬(99 / 100 ≤ pp ∧ dd < 1 / 100) ∧ 90 / 100 ≤ pp ∧ dd < 5 / 100) ∧
    (riskLabel pp dd = RiskLabel.medium ↔
      ¬(99 / 100 ≤ pp ∧ dd < 1 / 100) ∧ ¬(90 / 100 ≤ pp ∧ dd < 5 / 100) ∧
        70 / 100 ≤ pp) ∧
    (riskLabel pp dd = RiskLabel.high ↔
      ¬(99 / 100 ≤ pp ∧ dd < 1 / 100) ∧ ¬(90 / 100 ≤ pp ∧ dd < 5 / 100) ∧
        ¬(70 / 100 ≤ pp)) := by
  unfold riskLabel
  split_ifs with h1 h2 h3 <;> simp_all

/-- A fold that appends two blocks per element equals the flattening of the
per-element blocks after the initial accumulator. -/
theorem foldl_append_blocks {α β : Type} (g h : α → List β) (l : List α) (acc : List β) :
    l.foldl (fun out x => out ++ g x ++ h x) acc =
      acc ++ (l.map (fun x => g x ++ h x)).flatten := by
  induction l generalizing acc with
  | nil => simp
  | cons a t ih =>
    rw [List.foldl_cons, ih, List.map_cons, List.flatten_cons]
    simp [List.append_assoc]

/-- C9: the concatenated fan arrays of FanChart.jsx are the flattening of
one block per sample path, each block being the points of the path followed by
exactly one null separator; hence both arrays have the same length, namely
the sum over the paths of path length plus one. -/
theorem fan_arrays_aligned (sp : List (List ℚ)) :
    fanX sp = (sp.map (fun p => (List.range p.length).map some ++ [none])).flatten ∧
    fanY sp = (sp.map (fun p => p.map (fun v => some (v / 1000000)) ++ [none])).flatten ∧
    (fanX sp).length = (fanY sp).length ∧
    (fanX sp).length = (sp.map (fun p => p.length + 1)).sum := by
  have hx : fanX sp = (sp.map (fun p => (List.range p.length).map some ++ [none])).flatten := by
    unfold fanX
    rw [foldl_append_blocks (fun p : List ℚ => (List.range p.length).map some)
      (fun _ => [none]) sp []]
    simp
  have hy : fanY sp =
      (sp.map (fun p => p.map (fun v => some (v / 1000000)) ++ [none])).flatten := by
    unfold fanY
    rw [foldl_append_blocks (fun p : List ℚ => p.map (fun v => some (v / 1000000)))
      (fun _ => [none]) sp []]
    simp
  refine ⟨hx, hy, ?_, ?_⟩ <;>
    simp [hx, hy, List.length_flatten, Function.comp_def]

/-- C6 counterexample: on a non-ok response whose parsed body has no detail
field, handleResponse rejects with an empty message, which neither carries
a detail value nor falls back to the status text, contrary to the claim. -/
theorem handleResponse_counterexample :
    resNoDetail.ok = false ∧
    handleResponse resNoDetail = Except.error ("") ∧
    ¬("" = resNoDetail.statusText ∨
      ∃ b d, resNoDetail.body = some b ∧ b.detail = some d) := by
  refine ⟨rfl, rfl, ?_⟩
  rintro (h | ⟨b, d, hb, hd⟩)
  · exact absurd h (by decide)
  · cases hb
    cases hd

/-- C6 amended: handleResponse returns the parsed JSON body of every ok
response with a parseable body, and rejects every non-ok response without
returning a result, with a message that is the detail field when it is a
string, its JSON.stringify image when it is a non-string, the status text
when the body cannot be parsed, and empty when the body parses without a
detail field. -/
theorem handleResponse_cases (res : HttpResponse) :
    (res.ok = true → ∀ b, res.body = some b → handleResponse res = Except.ok b) ∧
    (res.ok = false → (∀ b, handleResponse res ≠ Except.ok b) ∧
      handleResponse res = Except.error (errorMessage res)) ∧
    (res.body = none → errorMessage res = res.statusText) ∧
    (∀ b s, res.body = some b → b.detail = some (JSVal.str s) → errorMessage res = s) ∧
    (∀ b r, res.body = some b → b.detail = some (JSVal.obj r) → errorMessage res = r) ∧
    (∀ b, res.body = some b → b.detail = none → errorMessage res = "") := by
  refine ⟨?_, ?_, ?_, ?_, ?_, ?_⟩
  · intro hok b hb
    simp [handleResponse, hok, hb]
  · intro hok
    constructor
    · intro b hc
      simp [handleResponse, hok] at hc
    · simp [handleResponse, hok]
  · intro hb
    simp [errorMessage, errorDetail, hb]
  · intro b s hb hd
    simp [errorMessage, errorDetail, hb, hd]
  · intro b r hb hd
    simp [errorMessage, errorDetail, hb, hd]
  · intro b hb hd
    simp [errorMessage, errorDetail, hb, hd]

/-- C6 amended witness: the amended theorem applied to a concrete non-ok
response carrying a string detail. -/
theorem handleResponse_cases_w :
    resStr.ok = false ∧
    handleResponse resStr = Except.error (errorMessage resStr) ∧
    errorMessage resStr = "bad capital" :=
  ⟨rfl,
    ((handleResponse_cases resStr).2.1 rfl).2,
    (handleResponse_cases resStr).2.2.2.1 bodyStr ("bad capital") rfl rfl⟩

/-- The cumulative sum has one entry per input. -/
theorem cumsumFrom_length (l : List ℚ) : ∀ acc : ℚ, (cumsumFrom acc l).length = l.length := by
  induction l with
  | nil => intro acc; rfl
  | cons x xs ih => intro acc; simp [cumsumFrom, ih]

/-- Entry j of the cumulative sum is the start value plus the sum of the
first j plus one inputs. -/
theorem cumsumFrom_getD (l : List ℚ) :
    ∀ (acc : ℚ) (j : ℕ), j < l.length →
      (cumsumFrom acc l).getD j 0 = acc + (l.take (j + 1)).sum := by
  induction l with
  | nil => intro acc j h; simp at h
  | cons x xs ih =>
    intro acc j h
    cases j with
    | zero => simp [cumsumFrom]
    | succ j =>
      have hs : (cumsumFrom acc (x :: xs)).getD (j + 1) 0 =
          (cumsumFrom (acc + x) xs).getD j 0 := rfl
      rw [hs, ih (acc + x) j (by simpa using h), List.take_succ_cons, List.sum_cons]
      ring

/-- C1: a valid analysis request succeeds with the assembled response,
whose historical equity curve has exactly one entry per trade, and whose
entry j is the initial capital plus the running sum of the first j plus one
trade profits. -/
theorem equity_curve_exact (idx : ℕ → ℕ → ℕ) (req : AnalysisRequest)
    (h : ¬(req.trades = [] ∨ req.initial_capital ≤ 0 ∨ req.n_simulations = 0 ∨
      req.n_sample_paths = 0 ∨ req.n_simulations < req.n_sample_paths)) :
    analyze idx req = Except.ok (engineResponse idx req) ∧
    (engineResponse idx req).equity_curve.equity.length = req.trades.length ∧
    ∀ j, j < req.trades.length →
      (engineResponse idx req).equity_curve.equity.getD j 0 =
        req.initial_capital + ((req.trades.map Trade.pnl).take (j + 1)).sum := by
  refine ⟨?_, ?_, ?_⟩
  · unfold analyze
    rw [if_neg h]
  · show (cumsumFrom req.initial_capital (enginePnl req)).length = req.trades.length
    rw [cumsumFrom_length]
    simp [enginePnl]
  · intro j hj
    show (cumsumFrom req.initial_capital (enginePnl req)).getD j 0 = _
    rw [cumsumFrom_getD (enginePnl req) req.initial_capital j
      (by simpa [enginePnl] using hj)]
    rfl

/-- C1 witness: the equity curve property evaluated on a concrete
two-trade request. -/
theorem equity_curve_exact_w :
    ¬(reqA.trades = [] ∨ reqA.initial_capital ≤ 0 ∨ reqA.n_simulations = 0 ∨
      reqA.n_sample_paths = 0 ∨ reqA.n_simulations < reqA.n_sample_paths) ∧
    (analyze idxZero reqA = Except.ok (engineResponse idxZero reqA) ∧
      (engineResponse idxZero reqA).equity_curve.equity.length = reqA.trades.length ∧
      ∀ j, j < reqA.trades.length →
        (engineResponse idxZero reqA).equity_curve.equity.getD j 0 =
          reqA.initial_capital + ((reqA.trades.map Trade.pnl).take (j + 1)).sum) :=
  ⟨by decide, equity_curve_exact idxZero reqA (by decide)⟩

/-- C2: a request with an empty trade list, non-positive initial capital,
zero simulation or sample count, or more sample paths than simulations is
rejected with InvalidInput, and no result, not even a partly computed one, is ever
returned for it. -/
theorem invalid_input_rejected (idx : ℕ → ℕ → ℕ) (req : AnalysisRequest)
    (h : req.trades = [] ∨ req.initial_capital ≤ 0 ∨ req.n_simulations = 0 ∨
      req.n_sample_paths = 0 ∨ req.n_simulations < req.n_sample_paths) :
    analyze idx req = Except.error EngineError.invalidInput ∧
    ∀ resp, analyze idx req ≠ Except.ok resp := by
  have he : analyze idx req = Except.error EngineError.invalidInput := by
    unfold analyze
    rw [if_pos h]
  refine ⟨he, fun resp hc => ?_⟩
  rw [he] at hc
  exact Except.noConfusion hc

/-- C2 witness: the rejection evaluated on a concrete empty-trade-list
request. -/
theorem invalid_input_rejected_w :
    (reqBad.trades = [] ∨ reqBad.initial_capital ≤ 0 ∨ reqBad.n_simulations = 0 ∨
      reqBad.n_sample_paths = 0 ∨ reqBad.n_simulations < reqBad.n_sample_paths) ∧
    (analyze idxZero reqBad = Except.error EngineError.invalidInput ∧
      ∀ resp, analyze idxZero reqBad ≠ Except.ok resp) :=
  ⟨by decide, invalid_input_rejected idxZero reqBad (by decide)⟩

/-- Clamped lookup into a sorted list is monotone in the index. -/
theorem nthSorted_mono {s : List ℚ} (hs : s.Sorted (· ≤ ·)) (hne : s ≠ [])
    {i j : ℕ} (hij : i ≤ j) : nthSorted s i ≤ nthSorted s j := by
  have hl : 0 < s.length := List.length_pos.mpr hne
  have hab : min i (s.length - 1) ≤ min j (s.length - 1) := min_le_min hij le_rfl
  have hb : min j (s.length - 1) < s.length :=
    lt_of_le_of_lt (min_le_right _ _) (Nat.sub_lt hl one_pos)
  have ha : min i (s.length - 1) < s.length := lt_of_le_of_lt hab hb
  unfold nthSorted
  rw [List.getD_eq_get _ _ ha, List.getD_eq_get _ _ hb]
  exact hs.rel_get_of_le hab

/-- The interpolated value at a non-negative position is at least the order
statistic at the floor index. -/
theorem nthSorted_le_interpAt {s : List ℚ} (hs : s.Sorted (· ≤ ·)) (hne : s ≠ [])
    (pos : ℚ) : nthSorted s ⌊pos⌋.toNat ≤ interpAt s pos := by
  have hf0 : 0 ≤ pos - ⌊pos⌋ := by
    have := Int.floor_le pos
    linarith
  have hd : nthSorted s ⌊pos⌋.toNat ≤ nthSorted s (⌊pos⌋.toNat + 1) :=
    nthSorted_mono hs hne (Nat.le_succ _)
  have := mul_nonneg hf0 (by linarith : (0 : ℚ) ≤
    nthSorted s (⌊pos⌋.toNat + 1) - nthSorted s ⌊pos⌋.toNat)
  unfold interpAt
  linarith

/-- The interpolated value is at most the order statistic one past the
floor index. -/
theorem interpAt_le_nthSorted {s : List ℚ} (hs : s.Sorted (· ≤ ·)) (hne : s ≠ [])
    (pos : ℚ) : interpAt s pos ≤ nthSorted s (⌊pos⌋.toNat + 1) := by
  have hf1 : pos - ⌊pos⌋ ≤ 1 := by
    have := Int.lt_floor_add_one pos
    push_cast at this
    linarith
  have hd : nthSorted s ⌊pos⌋.toNat ≤ nthSorted s (⌊pos⌋.toNat + 1) :=
    nthSorted_mono hs hne (Nat.le_succ _)
  have := mul_le_mul_of_nonneg_right hf1
    (by linarith : (0 : ℚ) ≤ nthSorted s (⌊pos⌋.toNat + 1) - nthSorted s ⌊pos⌋.toNat)
  unfold interpAt
  linarith

/-- Linear interpolation over a sorted list is monotone in the position, on
the non-negative axis. -/
theorem interpAt_mono {s : List ℚ} (hs : s.Sorted (· ≤ ·)) (hne : s ≠ [])
    {p1 p2 : ℚ} (h0 : 0 ≤ p1) (h12 : p1 ≤ p2) : interpAt s p1 ≤ interpAt s p2 := by
  by_cases hf : ⌊p1⌋ = ⌊p2⌋
  · have hd : nthSorted s ⌊p2⌋.toNat ≤ nthSorted s (⌊p2⌋.toNat + 1) :=
      nthSorted_mono hs hne (Nat.le_succ _)
    have hm := mul_le_mul_of_nonneg_right
      (by linarith : p1 - (⌊p2⌋ : ℚ) ≤ p2 - (⌊p2⌋ : ℚ))
      (by linarith : (0 : ℚ) ≤ nthSorted s (⌊p2⌋.toNat + 1) - nthSorted s ⌊p2⌋.toNat)
    unfold interpAt
    rw [hf]
    linarith
  · have hlt : ⌊p1⌋ < ⌊p2⌋ := lt_of_le_of_ne (Int.floor_le_floor h12) hf
    have h1n : 0 ≤ ⌊p1⌋ := Int.floor_nonneg.mpr h0
    have hidx : ⌊p1⌋.toNat + 1 ≤ ⌊p2⌋.toNat := by omega
    calc interpAt s p1 ≤ nthSorted s (⌊p1⌋.toNat + 1) := interpAt_le_nthSorted hs hne p1
      _ ≤ nthSorted s ⌊p2⌋.toNat := nthSorted_mono hs hne hidx
      _ ≤ interpAt s p2 := nthSorted_le_interpAt hs hne p2

/-- The linear-interpolation percentile of a non-empty list is monotone in
the requested percentile rank, on the non-negative axis. -/
theorem percentile_mono {q1 q2 : ℚ} {xs : List ℚ} (hq0 : 0 ≤ q1) (hq12 : q1 ≤ q2)
    (hxs : xs ≠ []) : percentile q1 xs ≤ percentile q2 xs := by
  have hs : (List.insertionSort (· ≤ ·) xs).Sorted (· ≤ ·) :=
    List.sorted_insertionSort _ xs
  have hne : List.insertionSort (· ≤ ·) xs ≠ [] := by
    intro hc
    apply hxs
    have := congrArg List.length hc
    rw [List.length_insertionSort] at this
    exact List.length_eq_zero.mp this
  have hc1 : 0 ≤ (xs.length : ℚ) - 1 := by
    have h1 : 1 ≤ xs.length := List.length_pos.mpr hxs
    have h2 : (1 : ℚ) ≤ (xs.length : ℚ) := by exact_mod_cast h1
    linarith
  unfold percentile
  apply interpAt_mono hs hne
  · exact div_nonneg (mul_nonneg hq0 hc1) (by norm_num)
  · have := mul_le_mul_of_nonneg_right hq12 hc1
    linarith

/-- Lookup with default into a mapped range evaluates the function. -/
theorem getD_map_range (f : ℕ → ℚ) {n j : ℕ} (h : j < n) :
    ((List.range n).map f).getD j 0 = f j := by
  rw [List.getD_eq_get _ _ (by simpa using h)]
  simp

/-- A cross-section of a non-empty ensemble is non-empty. -/
theorem column_ne_nil {paths : List (List ℚ)} (hp : paths ≠ []) (j : ℕ) :
    column paths j ≠ [] := by
  intro hc
  apply hp
  have := congrArg List.length hc
  simp only [column, List.length_map] at this
  exact List.length_eq_zero.mp this

/-- The simulated ensemble of a request with a positive simulation count is
non-empty. -/
theorem enginePaths_ne_nil (idx : ℕ → ℕ → ℕ) (req : AnalysisRequest)
    (h : req.n_simulations ≠ 0) : enginePaths idx req ≠ [] := by
  intro hc
  apply h
  have := congrArg List.length hc
  simpa [enginePaths, simPaths] using this

/-- The final-equity sample of a request with a positive simulation count
is non-empty. -/
theorem engineFinals_ne_nil (idx : ℕ → ℕ → ℕ) (req : AnalysisRequest)
    (h : req.n_simulations ≠ 0) : engineFinals idx req ≠ [] := by
  intro hc
  apply enginePaths_ne_nil idx req h
  have := congrArg List.length hc
  simp only [engineFinals, List.length_map] at this
  exact List.length_eq_zero.mp this

/-- C3: the five path bands of the response are pointwise ordered at every
time index, and the final-equity percentiles satisfy p5 at most the median
at most p95, for every request with at least one trade and one
simulation. -/
theorem band_ordering (idx : ℕ → ℕ → ℕ) (req : AnalysisRequest)
    (_h1 : req.trades ≠ []) (h2 : req.n_simulations ≠ 0) :
    (∀ j, j < req.trades.length →
      (engineResponse idx req).mc_paths.p5_path.getD j 0 ≤
          (engineResponse idx req).mc_paths.p25_path.getD j 0 ∧
        (engineResponse idx req).mc_paths.p25_path.getD j 0 ≤
          (engineResponse idx req).mc_paths.median_path.getD j 0 ∧
        (engineResponse idx req).mc_paths.median_path.getD j 0 ≤
          (engineResponse idx req).mc_paths.p75_path.getD j 0 ∧
        (engineResponse idx req).mc_paths.p75_path.getD j 0 ≤
          (engineResponse idx req).mc_paths.p95_path.getD j 0) ∧
    (engineResponse idx req).mc_distribution.p5 ≤
      (engineResponse idx req).mc_distribution.median_final ∧
    (engineResponse idx req).mc_distribution.median_final ≤
      (engineResponse idx req).mc_distribution.p95 := by
  have hp : enginePaths idx req ≠ [] := enginePaths_ne_nil idx req h2
  have hf : engineFinals idx req ≠ [] := engineFinals_ne_nil idx req h2
  refine ⟨?_, ?_, ?_⟩
  · intro j hj
    have hjn : j < (enginePnl req).length := by simpa [enginePnl] using hj
    have hb : ∀ q : ℚ,
        (bandPath q (enginePaths idx req) (enginePnl req).length).getD j 0 =
          percentile q (column (enginePaths idx req) j) :=
      fun q => getD_map_range _ hjn
    have hcol : column (enginePaths idx req) j ≠ [] := column_ne_nil hp j
    refine ⟨?_, ?_, ?_, ?_⟩
    · show (bandPath 5 (enginePaths idx req) (enginePnl req).length).getD j 0 ≤
        (bandPath 25 (enginePaths idx req) (enginePnl req).length).getD j 0
      rw [hb 5, hb 25]
      exact percentile_mono (by norm_num) (by norm_num) hcol
    · show (bandPath 25 (enginePaths idx req) (enginePnl req).length).getD j 0 ≤
        (bandPath 50 (enginePaths idx req) (enginePnl req).length).getD j 0
      rw [hb 25, hb 50]
      exact percentile_mono (by norm_num) (by norm_num) hcol
    · show (bandPath 50 (enginePaths idx req) (enginePnl req).length).getD j 0 ≤
        (bandPath 75 (enginePaths idx req) (enginePnl req).length).getD j 0
      rw [hb 50, hb 75]
      exact percentile_mono (by norm_num) (by norm_num) hcol
    · show (bandPath 75 (enginePaths idx req) (enginePnl req).length).getD j 0 ≤
        (bandPath 95 (enginePaths idx req) (enginePnl req).length).getD j 0
      rw [hb 75, hb 95]
      exact percentile_mono (by norm_num) (by norm_num) hcol
  · show percentile 5 (engineFinals idx req) ≤ percentile 50 (engineFinals idx req)
    exact percentile_mono (by norm_num) (by norm_num) hf
  · show percentile 50 (engineFinals idx req) ≤ percentile 95 (engineFinals idx req)
    exact percentile_mono (by norm_num) (by norm_num) hf

/-- C3 witness: the band ordering applied to a concrete two-trade,
three-simulation request. -/
theorem band_ordering_w :
    (reqA.trades ≠ [] ∧ reqA.n_simulations ≠ 0) ∧
    ((∀ j, j < reqA.trades.length →
      (engineResponse idxZero reqA).mc_paths.p5_path.getD j 0 ≤
          (engineResponse idxZero reqA).mc_paths.p25_path.getD j 0 ∧
        (engineResponse idxZero reqA).mc_paths.p25_path.getD j 0 ≤
          (engineResponse idxZero reqA).mc_paths.median_path.getD j 0 ∧
        (engineResponse idxZero reqA).mc_paths.median_path.getD j 0 ≤
          (engineResponse idxZero reqA).mc_paths.p75_path.getD j 0 ∧
        (engineResponse idxZero reqA).mc_paths.p75_path.getD j 0 ≤
          (engineResponse idxZero reqA).mc_paths.p95_path.getD j 0) ∧
    (engineResponse idxZero reqA).mc_distribution.p5 ≤
      (engineResponse idxZero reqA).mc_distribution.median_final ∧
    (engineResponse idxZero reqA).mc_distribution.median_final ≤
      (engineResponse idxZero reqA).mc_distribution.p95) :=
  ⟨⟨by decide, by decide⟩, band_ordering idxZero reqA (by decide) (by decide)⟩

/-- Evaluation of handleUpload when the upload step fails. -/
theorem handleUpload_eq_err (up : String → Except String UploadData)
    (run : AnalysisRequest → Except String AnalysisResponse) (ic : ℚ) (f : String)
    (e : String) (hu : up f = Except.error e) :
    handleUpload up run ic f =
      ({ loading := false, error := some e, results := none },
        [FrontEvent.uploadReq f]) := by
  unfold handleUpload
  rw [hu]

/-- Evaluation of handleUpload when the upload succeeds and the analysis
step fails. -/
theorem handleUpload_eq_ok_err (up : String → Except String UploadData)
    (run : AnalysisRequest → Except String AnalysisResponse) (ic : ℚ) (f : String)
    (u : UploadData) (e : String) (hu : up f = Except.ok u)
    (hr : run (mkAnalysisRequest u.trades ic) = Except.error e) :
    handleUpload up run ic f =
      ({ loading := false, error := some e, results := none },
        [FrontEvent.uploadReq f, FrontEvent.analyzeReq (mkAnalysisRequest u.trades ic)]) := by
  unfold handleUpload
  rw [hu]
  simp [hr]

/-- Evaluation of handleUpload when both steps succeed. -/
theorem handleUpload_eq_ok_ok (up : String → Except String UploadData)
    (run : AnalysisRequest → Except String AnalysisResponse) (ic : ℚ) (f : String)
    (u : UploadData) (a : AnalysisResponse) (hu : up f = Except.ok u)
    (hr : run (mkAnalysisRequest u.trades ic) = Except.ok a) :
    handleUpload up run ic f =
      ({ loading := false, error := none, results := some a },
        [FrontEvent.uploadReq f, FrontEvent.analyzeReq (mkAnalysisRequest u.trades ic)]) := by
  unfold handleUpload
  rw [hu]
  simp [hr]

/-- C5: every analysis request issued on the network by handleUpload in
App.jsx carries 10000 simulations and 500 sample paths, so the contract
constraint that sample paths not exceed simulations holds for every
request the client sends. -/
theorem client_request_counts (up : String → Except String UploadData)
    (run : AnalysisRequest → Except String AnalysisResponse) (ic : ℚ) (f : String)
    (req : AnalysisRequest)
    (h : FrontEvent.analyzeReq req ∈ (handleUpload up run ic f).2) :
    req.n_simulations = 10000 ∧ req.n_sample_paths = 500 ∧
      req.n_sample_paths ≤ req.n_simulations := by
  cases hu : up f with
  | error e =>
    rw [handleUpload_eq_err up run ic f e hu] at h
    simp at h
  | ok u =>
    cases hr : run (mkAnalysisRequest u.trades ic) with
    | error e =>
      rw [handleUpload_eq_ok_err up run ic f u e hu hr] at h
      simp at h
      subst h
      exact ⟨rfl, rfl, by norm_num [mkAnalysisRequest]⟩
    | ok a =>
      rw [handleUpload_eq_ok_ok up run ic f u a hu hr] at h
      simp at h
      subst h
      exact ⟨rfl, rfl, by norm_num [mkAnalysisRequest]⟩

/-- C5 witness: the fixed counts observed on the concrete trace of a
successful upload followed by a failing analysis call. -/
theorem client_request_counts_w :
    FrontEvent.analyzeReq (mkAnalysisRequest uD.trades 5) ∈ (handleUpload upA runA 5 fileA).2 ∧
    ((mkAnalysisRequest uD.trades 5).n_simulations = 10000 ∧
      (mkAnalysisRequest uD.trades 5).n_sample_paths = 500 ∧
      (mkAnalysisRequest uD.trades 5).n_sample_paths ≤
        (mkAnalysisRequest uD.trades 5).n_simulations) :=
  ⟨by decide, client_request_counts upA runA 5 fileA (mkAnalysisRequest uD.trades 5) (by decide)⟩

/-- C7: in every run of handleUpload the analysis request is issued only
after a successful upload and carries exactly the uploaded trades; the
trace is either the upload alone or the upload followed by that one
analysis call; and the final state either has no results with the error
set, or holds exactly the successful analysis result with no error. -/
theorem upload_before_analysis (up : String → Except String UploadData)
    (run : AnalysisRequest → Except String AnalysisResponse) (ic : ℚ) (f : String) :
    (∀ req, FrontEvent.analyzeReq req ∈ (handleUpload up run ic f).2 →
      ∃ u, up f = Except.ok u ∧ req = mkAnalysisRequest u.trades ic) ∧
    ((handleUpload up run ic f).2 = [FrontEvent.uploadReq f] ∨
      ∃ u, up f = Except.ok u ∧ (handleUpload up run ic f).2 =
        [FrontEvent.uploadReq f, FrontEvent.analyzeReq (mkAnalysisRequest u.trades ic)]) ∧
    (((handleUpload up run ic f).1.results = none ∧
        ∃ e, (handleUpload up run ic f).1.error = some e) ∨
      ∃ u a, up f = Except.ok u ∧ run (mkAnalysisRequest u.trades ic) = Except.ok a ∧
        (handleUpload up run ic f).1.results = some a ∧
        (handleUpload up run ic f).1.error = none) := by
  cases hu : up f with
  | error e =>
    rw [handleUpload_eq_err up run ic f e hu]
    refine ⟨?_, Or.inl rfl, Or.inl ⟨rfl, e, rfl⟩⟩
    intro req hreq
    simp at hreq
  | ok u =>
    cases hr : run (mkAnalysisRequest u.trades ic) with
    | error e =>
      rw [handleUpload_eq_ok_err up run ic f u e hu hr]
      refine ⟨?_, Or.inr ⟨u, rfl, rfl⟩, Or.inl ⟨rfl, e, rfl⟩⟩
      intro req hreq
      simp at hreq
      exact ⟨u, rfl, hreq⟩
    | ok a =>
      rw [handleUpload_eq_ok_ok up run ic f u a hu hr]
      refine ⟨?_, Or.inr ⟨u, rfl, rfl⟩, Or.inr ⟨u, a, rfl, hr, rfl, rfl⟩⟩
      intro req hreq
      simp at hreq
      exact ⟨u, rfl, hreq⟩

/-- C7 witness: the temporal property applied to a concrete successful
upload followed by a failing analysis call. -/
theorem upload_before_analysis_w :
    (∀ req, FrontEvent.analyzeReq req ∈ (handleUpload upA runA 5 fileA).2 →
      ∃ u, upA fileA = Except.ok u ∧ req = mkAnalysisRequest u.trades 5) ∧
    ((handleUpload upA runA 5 fileA).2 = [FrontEvent.uploadReq fileA] ∨
      ∃ u, upA fileA = Except.ok u ∧ (handleUpload upA runA 5 fileA).2 =
        [FrontEvent.uploadReq fileA, FrontEvent.analyzeReq (mkAnalysisRequest u.trades 5)]) ∧
    (((handleUpload upA runA 5 fileA).1.results = none ∧
        ∃ e, (handleUpload upA runA 5 fileA).1.error = some e) ∨
      ∃ u a, upA fileA = Except.ok u ∧ runA (mkAnalysisRequest u.trades 5) = Except.ok a ∧
        (handleUpload upA runA 5 fileA).1.results = some a ∧
        (handleUpload upA runA 5 fileA).1.error = none) :=
  upload_before_analysis upA runA 5 fileA

end MCAnalyser
